import Mathlib

/-!
Verification of the prediction-to-effect resolution and rendering core of the
ezbot-next-app repository: the Selector Resolver and Content Renderer
(src/components/DynamicContent.tsx) and the Style Compiler
(src/components/ServerSideStyles.tsx), over the Prediction record shape
declared in the server-prediction module.

JavaScript strings are modelled as Lean `String`s.  The string operations the
components use (template-literal concatenation, `trim`, `split(' ')`,
`Array.includes`, `Array.filter`, `Array.join(' ')`) are modelled by
kernel-computable functions below, each annotated with the JavaScript
operation it stands for.  Literal braces inside CSS rule strings are written
with the escapes \x7b and \x7d.
-/

/-- Shape of one directive record, from the server-prediction module:
key, type, version and value are strings; config is `{...} | null` with
fields selector, action and an optional attribute.  The source field named
attribute is called `attr` here because its original name is a Lean keyword. -/
structure PredictionConfig where
  selector : String
  action : String
  attr : Option String
deriving DecidableEq

/-- One prediction record: `{ key; type; version; value; config }` with
`config : { selector; action; attribute? } | null`. -/
structure Prediction where
  key : String
  type : String
  version : String
  value : String
  config : Option PredictionConfig
deriving DecidableEq

/-- Model of the JavaScript method trim applied to a string: drop whitespace
characters from the left of a character list. -/
def trimLeftChars : List Char → List Char
  | [] => []
  | c :: cs => if c.isWhitespace then trimLeftChars cs else c :: cs

/-- Model of the JavaScript string method trim: whitespace removed from both
ends (left-trim the reversal, reverse back, left-trim). -/
def jsTrim (s : String) : String :=
  ⟨(trimLeftChars (trimLeftChars s.data.reverse).reverse)⟩

/-- Splitting a character list at every single space character, keeping empty
segments, as the JavaScript call split with separator a single space does:
an empty input yields one empty segment. -/
def splitOnSpaceChars : List Char → List (List Char)
  | [] => [[]]
  | c :: cs =>
    let rest := splitOnSpaceChars cs
    if c = ' ' then [] :: rest
    else
      match rest with
      | [] => [[c]]
      | t :: ts => (c :: t) :: ts

/-- Model of the JavaScript call split with separator a single space. -/
def jsSplitOnSpace (s : String) : List String :=
  (splitOnSpaceChars s.data).map (fun l => String.mk l)

/-- Predicate of the Selector Resolver, the callback passed to find in
DynamicContent: pred.type is the string visual and pred.config?.selector
equals the given selector.  When config is null the optional chain yields
undefined, which never equals a string selector, so the record cannot match. -/
def matchesSelector (selector : String) (pred : Prediction) : Bool :=
  pred.type == "visual" &&
    (match pred.config with
     | some c => c.selector == selector
     | none => false)

/-- The Selector Resolver over an actual array: the call
predictions.find of the matching callback in DynamicContent, which is also
the documented behaviour of the SDK helper getVisualForSelector on arrays. -/
def getVisualForSelector (predictions : List Prediction) (selector : String) :
    Option Prediction :=
  predictions.find? (matchesSelector selector)

/-- Content of the rendered region: either the default children passed to the
component, literal text (a JSX text child, no markup interpretation), or raw
markup injected through dangerouslySetInnerHTML. -/
inductive DivContent (α : Type) where
  | node : α → DivContent α
  | text : String → DivContent α
  | rawHTML : String → DivContent α
deriving DecidableEq

/-- The div element DynamicContent returns: its className attribute (absent
when the component passes undefined through), its id attribute, and its
content. -/
structure RenderedDiv (α : Type) where
  className : Option String
  id : Option String
  content : DivContent α
deriving DecidableEq

/-- Body of DynamicContent after the find call, translated branch by branch:
the early default return when the resolved prediction or its config is
absent, the setText and setInnerHTML returns, and the class-modification
fall-through where finalClassName starts as className or the empty string,
addClasses renders the template of className and value joined by one space
and trimmed, removeClasses filters the split class list, and any other
action leaves finalClassName unchanged. -/
def renderResolved {α : Type} (relevantPrediction : Option Prediction)
    (children : α) (className : Option String) (id : Option String) :
    RenderedDiv α :=
  match relevantPrediction with
  | none => ⟨className, id, DivContent.node children⟩
  | some p =>
    match p.config with
    | none => ⟨className, id, DivContent.node children⟩
    | some cfg =>
      let action := cfg.action
      let value := p.value
      if action == "setText" then ⟨className, id, DivContent.text value⟩
      else if action == "setInnerHTML" then ⟨className, id, DivContent.rawHTML value⟩
      else
        let finalClassName := className.getD ("")
        let finalClassName :=
          if action == "addClasses" then jsTrim (finalClassName ++ " " ++ value)
          else if action == "removeClasses" then
            let classesToRemove := jsSplitOnSpace value
            String.intercalate (" ")
              ((jsSplitOnSpace finalClassName).filter
                (fun cls => !(classesToRemove.contains cls)))
          else finalClassName
        ⟨some finalClassName, id, DivContent.node children⟩

/-- The DynamicContent component on an array of predictions: resolve the
relevant prediction with the find call, then render. -/
def DynamicContent {α : Type} (predictions : List Prediction) (selector : String)
    (children : α) (className : Option String) (id : Option String) :
    RenderedDiv α :=
  renderResolved (getVisualForSelector predictions selector) children className id

/-- One iteration of the forEach loop of ServerSideStyles: the rule the switch
pushes for this record, or none.  Records whose type is not visual or whose
config is null are skipped by the guard at the top of the callback.  In the
setStyle case the source tests the attribute with a JavaScript truthiness
check, so both a missing attribute and an empty-string attribute skip the
push. -/
def ruleForPrediction (prediction : Prediction) : Option String :=
  if prediction.type != "visual" then none
  else
    match prediction.config with
    | none => none
    | some cfg =>
      let selector := cfg.selector
      let value := prediction.value
      if cfg.action == "hide" then
        some (selector ++ " \x7b display: none !important; \x7d")
      else if cfg.action == "show" then
        some (selector ++ " \x7b display: block !important; \x7d")
      else if cfg.action == "setStyle" then
        match cfg.attr with
        | some a =>
          if a == "" then none
          else some (selector ++ " \x7b " ++ a ++ ": " ++ value ++ " !important; \x7d")
        | none => none
      else if cfg.action == "setFontSize" then
        some (selector ++ " \x7b font-size: " ++ value ++ " !important; \x7d")
      else if cfg.action == "setFontColor" then
        some (selector ++ " \x7b color: " ++ value ++ " !important; \x7d")
      else if cfg.action == "setBackgroundColor" then
        some (selector ++ " \x7b background-color: " ++ value ++ " !important; \x7d")
      else if cfg.action == "setVisibility" then
        some (selector ++ " \x7b visibility: " ++ value ++ " !important; \x7d")
      else if cfg.action == "addGlobalCSS" then
        some value
      else none

/-- The cssRules array accumulated by the forEach loop of ServerSideStyles:
each iteration pushes at most one rule, so the loop is a filterMap in input
order. -/
def cssRulesOf (predictions : List Prediction) : List String :=
  predictions.filterMap ruleForPrediction

/-- The ServerSideStyles component on an array: null when cssRules is empty,
otherwise a style block whose text is the rules joined by newlines. -/
def ServerSideStyles (predictions : List Prediction) : Option String :=
  let cssRules := cssRulesOf predictions
  if cssRules.length == 0 then none
  else some (String.intercalate ("\n") cssRules)

/-- The prediction-list argument as it arrives at the component boundary: a
real array, undefined, or some other non-array value. -/
inductive PredictionsInput where
  | arr : List Prediction → PredictionsInput
  | undef : PredictionsInput
  | nonArray : PredictionsInput

/-- ServerSideStyles with its entry guard, from the SDK-based variant of the
component: when predictions is falsy or not an array the component returns
null before computing any CSS; on an array it proceeds as above. -/
def ServerSideStylesInput : PredictionsInput → Option String
  | PredictionsInput.arr ps => ServerSideStyles ps
  | PredictionsInput.undef => none
  | PredictionsInput.nonArray => none

/-- Modelled from the spec: the SDK helper getVisualForSelector that the
SDK-based variant of DynamicContent calls is not among this repository's
sources for non-array inputs; section 4.1 of the specification states that it
returns absence when the list is empty or undefined.  On an actual array it
is the find call embedded above. -/
def getVisualForSelectorInput : PredictionsInput → String → Option Prediction
  | PredictionsInput.arr ps, selector => getVisualForSelector ps selector
  | PredictionsInput.undef, _ => none
  | PredictionsInput.nonArray, _ => none

/-- DynamicContent at the component boundary: resolve against the incoming
value, then render. -/
def DynamicContentInput {α : Type} (input : PredictionsInput) (selector : String)
    (children : α) (className : Option String) (id : Option String) :
    RenderedDiv α :=
  renderResolved (getVisualForSelectorInput input selector) children className id

/-- Helper: find? returns some a exactly when a satisfies the predicate and
the list splits as a prefix of non-satisfying elements, then a, then a rest. -/
theorem find?_eq_some_iff_first {α : Type} (p : α → Bool) (l : List α) (a : α) :
    l.find? p = some a ↔
      p a = true ∧ ∃ l₁ l₂, l = l₁ ++ a :: l₂ ∧ ∀ x ∈ l₁, p x = false := by
  induction l with
  | nil => simp
  | cons x xs ih =>
    by_cases hx : p x = true
    · rw [List.find?_cons_of_pos _ hx]
      constructor
      · rintro h
        obtain rfl : x = a := by simpa using h
        exact ⟨hx, [], xs, rfl, by simp⟩
      · rintro ⟨ha, l₁, l₂, heq, hall⟩
        cases l₁ with
        | nil =>
          simp only [List.nil_append, List.cons.injEq] at heq
          rw [heq.1]
        | cons y ys =>
          simp only [List.cons_append, List.cons.injEq] at heq
          have : p x = false := heq.1 ▸ hall y (by simp)
          rw [this] at hx
          cases hx
    · rw [List.find?_cons_of_neg _ hx]
      rw [ih]
      constructor
      · rintro ⟨ha, l₁, l₂, heq, hall⟩
        refine ⟨ha, x :: l₁, l₂, by rw [heq]; rfl, ?_⟩
        intro z hz
        rcases List.mem_cons.mp hz with rfl | hz
        · exact Bool.eq_false_iff.mpr hx
        · exact hall z hz
      · rintro ⟨ha, l₁, l₂, heq, hall⟩
        cases l₁ with
        | nil =>
          simp only [List.nil_append, List.cons.injEq] at heq
          rw [heq.1] at hx
          exact absurd ha hx
        | cons y ys =>
          simp only [List.cons_append, List.cons.injEq] at heq
          refine ⟨ha, ys, l₂, heq.2, ?_⟩
          intro z hz
          exact hall z (by simp [hz])

/-- Helper: the resolver predicate holds exactly when the record is visual and
carries a config whose selector is the given one. -/
theorem matchesSelector_iff (sel : String) (p : Prediction) :
    matchesSelector sel p = true ↔
      p.type = "visual" ∧ ∃ c, p.config = some c ∧ c.selector = sel := by
  rw [matchesSelector]
  cases hc : p.config with
  | none => simp [hc]
  | some c =>
    simp only [hc, Bool.and_eq_true, beq_iff_eq, Option.some.injEq]
    constructor
    · rintro ⟨h1, h2⟩
      exact ⟨h1, c, rfl, h2⟩
    · rintro ⟨h1, c', hc', h2⟩
      exact ⟨h1, by rw [hc']; exact h2⟩

/-- C1: the Selector Resolver returns the first prediction in list order whose
type is visual and whose config.selector equals the given selector under
exact string equality, returns absence when no element matches, and every
later matching record is ignored (any returned record is preceded only by
non-matching records). -/
theorem getVisualForSelector_first_match (ps : List Prediction) (sel : String) :
    (getVisualForSelector ps sel = none ↔
      ∀ p ∈ ps, matchesSelector sel p = false) ∧
    (∀ p, getVisualForSelector ps sel = some p ↔
      matchesSelector sel p = true ∧
      ∃ l₁ l₂, ps = l₁ ++ p :: l₂ ∧ ∀ q ∈ l₁, matchesSelector sel q = false) ∧
    (∀ p, matchesSelector sel p = true ↔
      p.type = "visual" ∧ ∃ c, p.config = some c ∧ c.selector = sel) := by
  refine ⟨?_, ?_, ?_⟩
  · rw [getVisualForSelector, List.find?_eq_none]
    constructor
    · intro h p hp
      exact Bool.eq_false_iff.mpr (h p hp)
    · intro h p hp
      rw [h p hp]
      simp
  · intro p
    exact find?_eq_some_iff_first (matchesSelector sel) ps p
  · intro p
    exact matchesSelector_iff sel p

/-- C4: the Selector Resolver returns absence rather than failing when the
prediction list is empty or undefined, and raises no error for zero matches:
on any list whose records all fail the match predicate it totally evaluates
to none. -/
theorem getVisualForSelector_absence (sel : String) (ps : List Prediction)
    (h : ∀ p ∈ ps, matchesSelector sel p = false) :
    getVisualForSelector ps sel = none ∧
    getVisualForSelector [] sel = none ∧
    getVisualForSelectorInput PredictionsInput.undef sel = none := by
  refine ⟨?_, rfl, rfl⟩
  rw [getVisualForSelector, List.find?_eq_none]
  intro p hp
  rw [h p hp]
  simp

/-- Non-visual record used as concrete input in witnesses. -/
def nonVisualPred : Prediction :=
  ⟨"k1", "monetary", "0", "v", none⟩

/-- Visual record with a null config, used as concrete input in witnesses. -/
def visualNoConfig : Prediction :=
  ⟨"k2", "visual", "0", "v", none⟩

/-- Witness for C4 at a concrete non-matching list. -/
theorem getVisualForSelector_absence_witness :
    (∀ p ∈ [nonVisualPred, visualNoConfig], matchesSelector (".t") p = false) ∧
    (getVisualForSelector [nonVisualPred, visualNoConfig] (".t") = none ∧
     getVisualForSelector [] (".t") = none ∧
     getVisualForSelectorInput PredictionsInput.undef (".t") = none) :=
  ⟨by decide, getVisualForSelector_absence (".t") [nonVisualPred, visualNoConfig] (by decide)⟩

/-- C5: with no matching record the Content Renderer output equals the default
rendering exactly (children, className and id unchanged); moreover a record
that is not visual or whose config is absent never matches. -/
theorem dynamicContent_default {α : Type} (ps : List Prediction) (sel : String)
    (children : α) (className : Option String) (id : Option String)
    (q : Prediction) (h : ∀ p ∈ ps, matchesSelector sel p = false) :
    DynamicContent ps sel children className id =
      ⟨className, id, DivContent.node children⟩ ∧
    ((q.type ≠ "visual" ∨ q.config = none) → matchesSelector sel q = false) := by
  constructor
  · have hn : getVisualForSelector ps sel = none := by
      rw [getVisualForSelector, List.find?_eq_none]
      intro p hp
      rw [h p hp]
      simp
    rw [DynamicContent, hn]
    rfl
  · rintro (ht | hc)
    · rw [matchesSelector]
      simp [ht]
    · rw [matchesSelector, hc]
      simp

/-- Witness for C5: a list holding a non-visual record, a config-less visual
record and a visual record for another selector renders the default. -/
theorem dynamicContent_default_witness :
    (∀ p ∈ [nonVisualPred, visualNoConfig], matchesSelector (".t") p = false) ∧
    (DynamicContent [nonVisualPred, visualNoConfig] (".t") (7 : Nat)
        (some ("box")) (some ("region")) =
      ⟨some ("box"), some ("region"), DivContent.node 7⟩ ∧
    ((visualNoConfig.type ≠ "visual" ∨ visualNoConfig.config = none) →
      matchesSelector (".t") visualNoConfig = false)) :=
  ⟨by decide,
   dynamicContent_default [nonVisualPred, visualNoConfig] (".t") 7
     (some ("box")) (some ("region")) visualNoConfig (by decide)⟩

/-- C3: malformed or absent (undefined or non-array) prediction lists behave
exactly like the empty list: the Style Compiler produces no styles, the
Content Renderer produces the default content, and both components are total
functions of their input, so no error is raised. -/
theorem malformed_input_like_empty {α : Type} (sel : String) (children : α)
    (className : Option String) (id : Option String) :
    ServerSideStylesInput PredictionsInput.undef =
      ServerSideStylesInput (PredictionsInput.arr []) ∧
    ServerSideStylesInput PredictionsInput.nonArray =
      ServerSideStylesInput (PredictionsInput.arr []) ∧
    ServerSideStylesInput PredictionsInput.undef = none ∧
    DynamicContentInput PredictionsInput.undef sel children className id =
      DynamicContentInput (PredictionsInput.arr []) sel children className id ∧
    DynamicContentInput PredictionsInput.nonArray sel children className id =
      DynamicContentInput (PredictionsInput.arr []) sel children className id ∧
    DynamicContentInput PredictionsInput.undef sel children className id =
      ⟨className, id, DivContent.node children⟩ :=
  ⟨rfl, rfl, rfl, rfl, rfl, rfl⟩

/-- C9: the Style Compiler signals absence (null, no style block at all)
exactly when the rule list it accumulates is empty, that is, exactly when
every record emits no rule. -/
theorem serverSideStyles_absence_iff (ps : List Prediction) :
    (ServerSideStyles ps = none ↔ cssRulesOf ps = []) ∧
    (cssRulesOf ps = [] ↔ ∀ p ∈ ps, ruleForPrediction p = none) := by
  constructor
  · simp only [ServerSideStyles]
    cases h : cssRulesOf ps with
    | nil => simp [h]
    | cons r rs => simp [h]
  · rw [cssRulesOf]
    exact List.filterMap_eq_nil_iff

/-- C10: whenever the Selector Resolver returns a prediction, that prediction
is visual and its config is present with the matched selector, so the
config-absent fallback branch of DynamicContent can never run after a
successful match. -/
theorem resolved_config_present (ps : List Prediction) (sel : String)
    (p : Prediction) (h : getVisualForSelector ps sel = some p) :
    p.type = "visual" ∧ ∃ c, p.config = some c ∧ c.selector = sel := by
  have hm : matchesSelector sel p = true := List.find?_some h
  exact (matchesSelector_iff sel p).mp hm

/-- Visual setText record used as concrete input in witnesses, the first
concrete scenario of the specification. -/
def textPred : Prediction :=
  ⟨"a", "visual", "0", "Hello", some ⟨".t", "setText", none⟩⟩

/-- Witness for C10 at a concrete resolved prediction. -/
theorem resolved_config_present_witness :
    getVisualForSelector [nonVisualPred, textPred] (".t") = some textPred ∧
    (textPred.type = "visual" ∧
     ∃ c, textPred.config = some c ∧ c.selector = ".t") :=
  ⟨by decide, resolved_config_present [nonVisualPred, textPred] (".t") textPred (by decide)⟩

/-- C6: when the resolved directive's action is setText, the Content Renderer
emits the region with its content fully replaced by the directive's value as
literal text (the text constructor, no markup interpretation), keeping the
region's className and id. -/
theorem dynamicContent_setText {α : Type} (ps : List Prediction) (sel : String)
    (children : α) (className : Option String) (id : Option String)
    (p : Prediction) (cfg : PredictionConfig)
    (h1 : getVisualForSelector ps sel = some p) (h2 : p.config = some cfg)
    (h3 : cfg.action = "setText") :
    DynamicContent ps sel children className id =
      ⟨className, id, DivContent.text p.value⟩ := by
  rw [DynamicContent, h1]
  simp only [renderResolved, h2, h3]
  rfl

/-- Witness for C6: the specification's first concrete scenario, rendered with
its default content replaced by the string Hello. -/
theorem dynamicContent_setText_witness :
    getVisualForSelector [textPred] (".t") = some textPred ∧
    textPred.config = some ⟨".t", "setText", none⟩ ∧
    DynamicContent [textPred] (".t") (0 : Nat) (some ("box")) none =
      ⟨some ("box"), none, DivContent.text ("Hello")⟩ := by
  refine ⟨by decide, by decide, ?_⟩
  have h := dynamicContent_setText [textPred] (".t") (0 : Nat) (some ("box"))
    none textPred ⟨".t", "setText", none⟩ (by decide) rfl rfl
  rw [h]
  decide

/-- C7: when the resolved directive's action is addClasses, the resulting
class attribute is the existing class value and the directive's value joined
by a single space and trimmed, with no deduplication, while content and id
are unchanged. -/
theorem dynamicContent_addClasses {α : Type} (ps : List Prediction) (sel : String)
    (children : α) (className : Option String) (id : Option String)
    (p : Prediction) (cfg : PredictionConfig)
    (h1 : getVisualForSelector ps sel = some p) (h2 : p.config = some cfg)
    (h3 : cfg.action = "addClasses") :
    DynamicContent ps sel children className id =
      ⟨some (jsTrim ((className.getD ("")) ++ " " ++ p.value)), id,
        DivContent.node children⟩ := by
  rw [DynamicContent, h1]
  simp only [renderResolved, h2, h3]
  rfl

/-- Visual addClasses record used as concrete input in witnesses, the fifth
concrete scenario of the specification. -/
def addClassesPred : Prediction :=
  ⟨"d", "visual", "0", "foo bar", some ⟨".z", "addClasses", none⟩⟩

/-- Witness for C7: base class box with value foo bar yields box foo bar. -/
theorem dynamicContent_addClasses_witness :
    getVisualForSelector [addClassesPred] (".z") = some addClassesPred ∧
    DynamicContent [addClassesPred] (".z") (0 : Nat) (some ("box")) none =
      ⟨some ("box foo bar"), none, DivContent.node 0⟩ := by
  refine ⟨by decide, ?_⟩
  have h := dynamicContent_addClasses [addClassesPred] (".z") (0 : Nat)
    (some ("box")) none addClassesPred ⟨".z", "addClasses", none⟩
    (by decide) rfl rfl
  rw [h]
  decide

/-- C8: when the resolved directive's action is removeClasses, the resulting
class attribute is the existing class list with every token that occurs in
the space-delimited value removed by exact token match, the remaining tokens
kept in their relative order and rejoined by single spaces, while content and
id are unchanged. -/
theorem dynamicContent_removeClasses {α : Type} (ps : List Prediction)
    (sel : String) (children : α) (className : Option String)
    (id : Option String) (p : Prediction) (cfg : PredictionConfig)
    (h1 : getVisualForSelector ps sel = some p) (h2 : p.config = some cfg)
    (h3 : cfg.action = "removeClasses") :
    DynamicContent ps sel children className id =
      ⟨some (String.intercalate (" ")
          ((jsSplitOnSpace (className.getD (""))).filter
            (fun cls => !((jsSplitOnSpace p.value).contains cls)))), id,
        DivContent.node children⟩ := by
  rw [DynamicContent, h1]
  simp only [renderResolved, h2, h3]
  rfl

/-- Visual removeClasses record used as concrete input in witnesses. -/
def removeClassesPred : Prediction :=
  ⟨"f", "visual", "0", "old stale", some ⟨".w", "removeClasses", none⟩⟩

/-- Witness for C8: base class list box old big stale with value old stale
yields box big, preserving the order of the remaining tokens. -/
theorem dynamicContent_removeClasses_witness :
    getVisualForSelector [removeClassesPred] (".w") = some removeClassesPred ∧
    DynamicContent [removeClassesPred] (".w") (0 : Nat)
        (some ("box old big stale")) none =
      ⟨some ("box big"), none, DivContent.node 0⟩ := by
  refine ⟨by decide, ?_⟩
  have h := dynamicContent_removeClasses [removeClassesPred] (".w") (0 : Nat)
    (some ("box old big stale")) none removeClassesPred
    ⟨".w", "removeClasses", none⟩ (by decide) rfl rfl
  rw [h]
  decide

/-- Action-to-rule table written exactly from the claim's wording: hide and
show emit display rules, setStyle with the attribute field present emits the
attribute rule and with the attribute absent emits nothing, the font, color,
background and visibility actions emit their property rules, addGlobalCSS
emits the value verbatim, and any other action emits nothing. -/
def specTableRule (cfg : PredictionConfig) (value : String) : Option String :=
  match cfg.action, cfg.attr with
  | "hide", _ => some (cfg.selector ++ " \x7b display: none !important; \x7d")
  | "show", _ => some (cfg.selector ++ " \x7b display: block !important; \x7d")
  | "setStyle", some a =>
    some (cfg.selector ++ " \x7b " ++ a ++ ": " ++ value ++ " !important; \x7d")
  | "setStyle", none => none
  | "setFontSize", _ =>
    some (cfg.selector ++ " \x7b font-size: " ++ value ++ " !important; \x7d")
  | "setFontColor", _ =>
    some (cfg.selector ++ " \x7b color: " ++ value ++ " !important; \x7d")
  | "setBackgroundColor", _ =>
    some (cfg.selector ++ " \x7b background-color: " ++ value ++ " !important; \x7d")
  | "setVisibility", _ =>
    some (cfg.selector ++ " \x7b visibility: " ++ value ++ " !important; \x7d")
  | "addGlobalCSS", _ => some value
  | _, _ => none

/-- The Style Compiler as the claim describes it: iterate once in input order,
skip records that are not visual or have no config, emit per the stated
table. -/
def specCompile (predictions : List Prediction) : List String :=
  predictions.filterMap (fun p =>
    if p.type ≠ "visual" then none
    else
      match p.config with
      | none => none
      | some cfg => specTableRule cfg p.value)

/-- Visual setStyle record whose attribute field is present but holds the
empty string. -/
def emptyAttrStylePred : Prediction :=
  ⟨"e", "visual", "0", "red", some ⟨".x", "setStyle", some ("")⟩⟩

/-- C2 counterexample: on a setStyle record whose attribute field is present
but empty, the claim's table emits a rule while the code's truthiness test
drops the record, so the compiled outputs differ: the code returns null where
the claim prescribes a style block. -/
theorem styleCompiler_table_counterexample :
    cssRulesOf [emptyAttrStylePred] = [] ∧
    specCompile [emptyAttrStylePred] = [".x \x7b : red !important; \x7d"] ∧
    cssRulesOf [emptyAttrStylePred] ≠ specCompile [emptyAttrStylePred] ∧
    ServerSideStyles [emptyAttrStylePred] = none := by
  decide

/-- The claim's table amended no more than the counterexample forces: the
setStyle row emits its rule exactly when the attribute field is present and
nonempty, and emits nothing when the attribute is absent or empty; every
other row is as the claim states it. -/
def specTableRuleAmended (cfg : PredictionConfig) (value : String) :
    Option String :=
  match cfg.action, cfg.attr with
  | "hide", _ => some (cfg.selector ++ " \x7b display: none !important; \x7d")
  | "show", _ => some (cfg.selector ++ " \x7b display: block !important; \x7d")
  | "setStyle", some a =>
    if a = "" then none
    else some (cfg.selector ++ " \x7b " ++ a ++ ": " ++ value ++ " !important; \x7d")
  | "setStyle", none => none
  | "setFontSize", _ =>
    some (cfg.selector ++ " \x7b font-size: " ++ value ++ " !important; \x7d")
  | "setFontColor", _ =>
    some (cfg.selector ++ " \x7b color: " ++ value ++ " !important; \x7d")
  | "setBackgroundColor", _ =>
    some (cfg.selector ++ " \x7b background-color: " ++ value ++ " !important; \x7d")
  | "setVisibility", _ =>
    some (cfg.selector ++ " \x7b visibility: " ++ value ++ " !important; \x7d")
  | "addGlobalCSS", _ => some value
  | _, _ => none

/-- One record of the amended spec compiler: skip non-visual and config-less
records, then apply the amended table. -/
def specRecordRuleAmended (p : Prediction) : Option String :=
  if p.type ≠ "visual" then none
  else
    match p.config with
    | none => none
    | some cfg => specTableRuleAmended cfg p.value

/-- The amended spec compiler over a list, in input order, no sorting and no
deduplication. -/
def specCompileAmended (predictions : List Prediction) : List String :=
  predictions.filterMap specRecordRuleAmended

/-- Helper: the rule the code emits for one record coincides pointwise with
the amended table. -/
theorem ruleForPrediction_eq_amended (p : Prediction) :
    ruleForPrediction p = specRecordRuleAmended p := by
  rw [ruleForPrediction, specRecordRuleAmended]
  by_cases ht : p.type = "visual"
  · rw [ht]
    simp only [bne_self_eq_false, Bool.false_eq_true, if_false, ne_eq,
      not_true_eq_false]
    cases hc : p.config with
    | none => rfl
    | some cfg =>
      obtain ⟨csel, cact, cattr⟩ := cfg
      by_cases h1 : cact = "hide"
      · subst h1; rfl
      by_cases h2 : cact = "show"
      · subst h2; rfl
      by_cases h3 : cact = "setStyle"
      · subst h3
        cases cattr with
        | none => rfl
        | some a =>
          simp only [specTableRuleAmended]
          by_cases ha : a = ""
          · subst ha; rfl
          · have hb : ¬((a == "") = true) := fun h => ha (by simpa using h)
            rw [if_neg ha, if_neg hb]
            rfl
      by_cases h4 : cact = "setFontSize"
      · subst h4; rfl
      by_cases h5 : cact = "setFontColor"
      · subst h5; rfl
      by_cases h6 : cact = "setBackgroundColor"
      · subst h6; rfl
      by_cases h7 : cact = "setVisibility"
      · subst h7; rfl
      by_cases h8 : cact = "addGlobalCSS"
      · subst h8; rfl
      by_cases h9 : cact = "setText"
      · subst h9; rfl
      · simp only [specTableRuleAmended]
        rw [if_neg (by simpa using h1), if_neg (by simpa using h2),
          if_neg (by simpa using h3), if_neg (by simpa using h4),
          if_neg (by simpa using h5), if_neg (by simpa using h6),
          if_neg (by simpa using h7), if_neg (by simpa using h8)]
        split
        all_goals first
          | rfl
          | (exfalso; simp_all)
  · rw [if_pos (by simpa using ht), if_pos ht]

/-- C2 amended: the Style Compiler iterates the list once in order, skips
every record whose type is not visual or whose config is absent, emits for
each remaining record exactly the rule of the amended action-to-rule table
(setStyle emitting only for a present nonempty attribute), and joins the
emitted rule texts with newline separators in input order with no sorting
and no deduplication. -/
theorem styleCompiler_matches_amended_table (ps : List Prediction) :
    cssRulesOf ps = specCompileAmended ps ∧
    ServerSideStyles ps =
      (if specCompileAmended ps = [] then none
       else some (String.intercalate ("\n") (specCompileAmended ps))) := by
  have hfun : ruleForPrediction = specRecordRuleAmended :=
    funext ruleForPrediction_eq_amended
  have hpt : cssRulesOf ps = specCompileAmended ps := by
    rw [cssRulesOf, specCompileAmended, hfun]
  refine ⟨hpt, ?_⟩
  simp only [ServerSideStyles, hpt]
  cases h : specCompileAmended ps with
  | nil => simp [h]
  | cons r rs => simp [h]
